import Mathlib

/-!
# Files manager: the `FilesController` request handlers

A shallow embedding of `src/controllers/FilesController.js`.

* JavaScript values that reach the handlers are the scalar values of `Val`;
  a document (a JavaScript object, a MongoDB document, a JSON body) is an
  association list `Doc` from field names to values.
* The collaborators are explicit state: the Redis session store, the `users`
  and `files` collections, the file system under the storage root and the
  `fileQueue` job list are the fields of `World`.
* What the libraries decide for a request is carried by `Env`: the value of
  `FOLDER_PATH`, the name `uuidv4()` returns, the identifier `insertOne`
  assigns, and whether `fs.promises.writeFile` rejects.
* A handler either answers (`Result.returned`) or throws (`Result.threw`).
-/

set_option autoImplicit false

namespace FilesManager

/-! ## Values and documents -/

/-- A MongoDB `ObjectId`, identified by its 24-character hexadecimal text. -/
structure ObjectId where
  hex : String
  wf : hex.length = 24
deriving DecidableEq, Repr

/-- Hexadecimal text of an identifier: `_id.toString()`. -/
def ObjectId.toString (o : ObjectId) : String := o.hex

/-- The scalar JavaScript / BSON values the handlers read and write. A string and
an `ObjectId` are different values, also when the string is the identifier's text:
MongoDB compares them by type first. -/
inductive Val where
  | undefined
  | null
  | bool (b : Bool)
  | num (n : Int)
  | str (s : String)
  | oid (o : ObjectId)
deriving DecidableEq, Repr

/-- JavaScript truthiness: what `if (v)` and `!v` test. -/
def Val.truthy : Val → Bool
  | .undefined => false
  | .null => false
  | .bool b => b
  | .num n => n != 0
  | .str s => s != ""
  | .oid _ => true

/-- Text a value contributes to a template literal. -/
def Val.toTemplateString : Val → String
  | .undefined => "undefined"
  | .null => "null"
  | .bool true => "true"
  | .bool false => "false"
  | .num n => toString n
  | .str s => s
  | .oid o => o.toString

/-- A request field that may be absent: `undefined` when it is. -/
def optStr : Option String → Val
  | some s => .str s
  | none => .undefined

/-- A JavaScript object with scalar fields, as the list of its bindings in
insertion order; as in an object literal, a later binding of a name overrides an
earlier one. -/
abbrev Doc := List (String × Val)

/-- Whether the object has a field named `k`. -/
def Doc.hasKey (d : Doc) (k : String) : Bool :=
  d.any (fun kv => kv.1 == k)

/-- Field read `d.k`: `undefined` when the field is absent. -/
def Doc.get : Doc → String → Val
  | [], _ => .undefined
  | kv :: rest, k =>
    if Doc.hasKey rest k then Doc.get rest k
    else if kv.1 == k then kv.2 else .undefined

/-- Field removal `delete d.k`. -/
def Doc.delete (d : Doc) (k : String) : Doc :=
  d.filter (fun kv => !(kv.1 == k))

/-- Field assignment `d.k = v`: overwrites in place, or adds the field last. -/
def Doc.set (d : Doc) (k : String) (v : Val) : Doc :=
  if d.hasKey k then d.map (fun kv => if kv.1 == k then (k, v) else kv)
  else d ++ [(k, v)]

/-- Object spread `{ ...base, ...src }`: each field of `src` assigned onto `base`. -/
def Doc.spread (base src : Doc) : Doc :=
  src.foldl (fun acc kv => acc.set kv.1 kv.2) base

/-- The object the show, index and publish handlers serialise:
`const { _id, localPath, ...fileData } = file; ({ id: _id, ...fileData })`. -/
def publicView (file : Doc) : Doc :=
  let fileData := (file.delete "_id").delete "localPath"
  Doc.spread [("id", file.get "_id")] fileData

/-! ## Collaborators -/

/-- An equality filter such as `{ _id: ObjectId(id), userId: user._id }`. -/
abbrev Query := List (String × Val)

/-- A document satisfies an equality filter when every named field holds exactly
the filter's value (same type, same content). -/
def matchesQuery (q : Query) (d : Doc) : Bool :=
  q.all (fun kv => d.get kv.1 == kv.2)

/-- The call `collection.findOne(q)`: first matching document in stored order. -/
def findOne (coll : List Doc) (q : Query) : Option Doc :=
  coll.find? (matchesQuery q)

/-- The call `collection.updateOne(q, { $set: { k: v } })`: the first matching
document gets the field, the others are untouched. -/
def updateOne (q : Query) (k : String) (v : Val) : List Doc → List Doc
  | [] => []
  | d :: rest => if matchesQuery q d then d.set k v :: rest else d :: updateOne q k v rest

/-- The call `collection.insertOne(doc)` with the identifier it assigns: the
driver adds `_id` to the object and the document is stored last. Returns the
object as mutated and the collection. -/
def insertOne (coll : List Doc) (doc : Doc) (insertedId : ObjectId) : Doc × List Doc :=
  let stored := doc.set "_id" (.oid insertedId)
  (stored, coll ++ [stored])

/-- A document of the `users` collection; only `_id` is read by the controller. -/
structure User where
  _id : ObjectId
  email : String
deriving DecidableEq, Repr

/-- Text of an identifier as a request or the session store carries it, with what
the driver's `ObjectId(text)` makes of it: the identifier, or `none` when the
constructor throws because the text is not the text of an identifier. -/
structure IdText where
  text : String
  objectId : Option ObjectId
deriving DecidableEq, Repr

/-- The text a client sends for an identifier it was given. -/
def IdText.ofObjectId (o : ObjectId) : IdText := ⟨o.toString, some o⟩

/-- An entry of the file system: a directory, or a file with its bytes. -/
inductive FsEntry where
  | dir
  | file (bytes : List Nat)
deriving DecidableEq, Repr

/-- State of the collaborators between two requests. -/
structure World where
  /-- Redis: key to stored text. -/
  redis : List (String × IdText)
  /-- Collection `users`. -/
  users : List User
  /-- Collection `files`, in stored order. -/
  files : List Doc
  /-- File system: path to entry; the first binding of a path is current. -/
  fs : List (String × FsEntry)
  /-- Payloads handed to `fileQueue.add`, oldest first. -/
  queue : List Doc
deriving DecidableEq, Repr

/-- What the libraries decide while one request is handled. -/
structure Env where
  /-- Environment variable `FOLDER_PATH`. -/
  FOLDER_PATH : Option String
  /-- Result of `uuidv4()`. -/
  uuid : String
  /-- Identifier `insertOne` assigns (`result.insertedId`). -/
  insertedId : ObjectId
  /-- Whether `fs.promises.writeFile` rejects. -/
  writeFails : Bool
deriving DecidableEq, Repr

/-- Outcome of an awaited call or of a whole handler. -/
inductive Result (α : Type) where
  | returned (a : α)
  | threw
deriving DecidableEq, Repr

/-- What a handler sends. -/
inductive Body where
  /-- The call `res.json(obj)`. -/
  | json (d : Doc)
  /-- The call `res.json(array)`. -/
  | jsonArray (ds : List Doc)
  /-- The call `res.sendFile(path)` after `res.set('Content-Type', mime.lookup(name))`;
  the type table is the library's, so the looked-up name is kept. -/
  | sendFile (path : String) (mimeOf : Val)
deriving DecidableEq, Repr

/-- Status and body of an answer. -/
structure Response where
  status : Nat
  body : Body
deriving DecidableEq, Repr

/-- The answer `res.status(code).json({ error: msg })`. -/
def jsonError (code : Nat) (msg : String) : Response :=
  ⟨code, .json [("error", .str msg)]⟩

/-- Bytes the file system holds at a path, when it holds a file there. -/
def readFile (w : World) (path : String) : Option (List Nat) :=
  match w.fs.lookup path with
  | some (.file bytes) => some bytes
  | _ => none

/-- Bytes `res.sendFile` delivers for an answer, read from the file system. -/
def Response.delivered (w : World) (r : Response) : Option (List Nat) :=
  match r.body with
  | .sendFile path _ => readFile w path
  | _ => none

/-! ## Library functions -/

/-- Value of a character in the base64 alphabets `Buffer.from` accepts. -/
def base64Digit (c : Char) : Option Nat :=
  if 'A' ≤ c ∧ c ≤ 'Z' then some (c.toNat - 65)
  else if 'a' ≤ c ∧ c ≤ 'z' then some (c.toNat - 97 + 26)
  else if '0' ≤ c ∧ c ≤ '9' then some (c.toNat - 48 + 52)
  else if c = '+' ∨ c = '-' then some 62
  else if c = '/' ∨ c = '_' then some 63
  else none

/-- Bytes of a run of 6-bit digits, four digits to three bytes. -/
def base64Bytes : List Nat → List Nat
  | a :: b :: c :: d :: rest =>
      (a * 4 + b / 16) :: ((b % 16) * 16 + c / 4) :: ((c % 4) * 64 + d) :: base64Bytes rest
  | [a, b, c] => [a * 4 + b / 16, (b % 16) * 16 + c / 4]
  | [a, b] => [a * 4 + b / 16]
  | _ => []

/-- The call `Buffer.from(data, 'base64')`: digits up to the padding, characters
outside the alphabet skipped. -/
def bufferFromBase64 (data : String) : List Nat :=
  base64Bytes ((data.data.takeWhile (fun c => c != '=')).filterMap base64Digit)

/-- Segments of a path between its `/` separators. -/
def splitSlash : List Char → List (List Char)
  | [] => [[]]
  | c :: cs =>
    if c = '/' then [] :: splitSlash cs
    else
      match splitSlash cs with
      | seg :: rest => (c :: seg) :: rest
      | [] => [[c]]

/-- One step of POSIX `normalizeString` on the segments kept so far, last first:
an empty segment and `.` are dropped, `..` removes the segment before it, or is
kept when there is none to remove and the path is relative. -/
def normalizeStep (allowAboveRoot : Bool) (kept : List (List Char)) (seg : List Char) :
    List (List Char) :=
  if seg = [] ∨ seg = ['.'] then kept
  else if seg = ['.', '.'] then
    match kept with
    | top :: rest =>
      if top = ['.', '.'] then (if allowAboveRoot then seg :: kept else kept) else rest
    | [] => if allowAboveRoot then [seg] else []
  else seg :: kept

/-- The call `path.normalize(path)` of the POSIX `path` module. -/
def pathNormalize (path : String) : String :=
  let cs := path.data
  if cs = [] then "."
  else
    let isAbs : Bool := cs.head? = some '/'
    let trailing : Bool := cs.getLast? = some '/'
    let kept := ((splitSlash cs).foldl (normalizeStep (!isAbs)) []).reverse
    if kept = [] then (if isAbs then "/" else if trailing then "./" else ".")
    else
      (if isAbs then "/" else "") ++ String.mk (List.intercalate ['/'] kept)
        ++ (if trailing then "/" else "")

/-- The call `path.join(dir, name)` of the POSIX `path` module: the non-empty
arguments joined by `/`, then normalised. -/
def pathJoin (dir name : String) : String :=
  if dir = "" then (if name = "" then "." else pathNormalize name)
  else if name = "" then pathNormalize dir
  else pathNormalize (dir ++ "/" ++ name)

/-- Express's `isAbsolute(path)`, the test `res.sendFile` applies to its path when
no `root` option is given: a leading `/`, a drive prefix such as `C:/`, or two
leading backslashes. -/
def isAbsolute (path : String) : Bool :=
  let cs := path.data
  decide (cs.head? = some '/')
    || (decide (cs[1]? = some ':')
        && (decide (cs[2]? = some '\\') || decide (cs[2]? = some '/')))
    || decide (cs.take 2 = ['\\', '\\'])

/-- Truthiness of a request field that is a string when present. -/
def given (s : Option String) : Bool := (optStr s).truthy

/-! ## Requests -/

/-- Body of `POST /files`, fields absent or of their documented types. -/
structure UploadBody where
  name : Option String
  type : Option String
  parentId : Option IdText
  isPublic : Option Bool
  data : Option String
deriving DecidableEq, Repr

/-- An upload request: the `X-Token` header and the body. -/
structure UploadRequest where
  xToken : Option String
  body : UploadBody
deriving DecidableEq, Repr

/-- A request addressed to one record: `GET /files/:id`, `PUT /files/:id/publish`,
`PUT /files/:id/unpublish`. -/
structure IdRequest where
  xToken : Option String
  id : IdText
deriving DecidableEq, Repr

/-- A listing request; `page` is the number the query text stands for. -/
structure IndexRequest where
  xToken : Option String
  parentId : Option String
  page : Option Int
deriving DecidableEq, Repr

/-- A content request `GET /files/:id/data`. -/
structure FileRequest where
  xToken : Option String
  id : Option IdText
  size : Option String
deriving DecidableEq, Repr

/-! ## The controller -/

namespace FilesController

/-- The list `validTypes`. -/
def validTypes : List String := ["folder", "file", "image"]

/-- Source: `retrieveUserBasedOnToken(req)`. -/
def retrieveUserBasedOnToken (w : World) (xToken : Option String) : Result (Option User) :=
  match xToken with
  | none => .returned none
  | some authToken =>
    if authToken = "" then .returned none
    else
      let token := "auth_" ++ authToken
      match w.redis.lookup token with
      | none => .returned none
      | some userId =>
        if userId.text = "" then .returned none
        else
          match userId.objectId with
          | none => .threw
          | some o => .returned (w.users.find? (fun u => u._id == o))

/-- Source: `pathExists(path)`. -/
def pathExists (w : World) (path : String) : Bool :=
  (w.fs.lookup path).isSome

/-- Source: `ensureDirectoryExists(dirPath)`. -/
def ensureDirectoryExists (w : World) (dirPath : String) : World :=
  if pathExists w dirPath then w
  else { w with fs := w.fs ++ [(dirPath, .dir)] }

/-- Source: `writeToFile(res, filePath, data, newFile)`. -/
def writeToFile (w : World) (env : Env) (filePath : String) (data : List Nat)
    (newFile : Doc) : World × Result Response :=
  if env.writeFails then (w, .threw)
  else
    let w1 : World := { w with fs := (filePath, .file data) :: w.fs }
    let inserted := insertOne w1.files newFile env.insertedId
    let w2 : World := { w1 with files := inserted.2 }
    let writeResp := ((inserted.1.set "id" (.oid env.insertedId)).delete "_id").delete "localPath"
    let w3 : World :=
      if writeResp.get "type" = .str "image" then
        { w2 with queue := w2.queue ++ [[("userId", writeResp.get "userId"), ("fileId", writeResp.get "id")]] }
      else w2
    (w3, .returned ⟨201, .json writeResp⟩)

/-- Source: `postUpload(req, res)`. -/
def postUpload (w : World) (env : Env) (req : UploadRequest) : World × Result Response :=
  match retrieveUserBasedOnToken w req.xToken with
  | .threw => (w, .threw)
  | .returned none => (w, .returned (jsonError 401 "Unauthorized"))
  | .returned (some user) =>
    let b := req.body
    if !(given b.name) then (w, .returned (jsonError 400 "Missing name"))
    else if !(given b.type) || !((validTypes.map some).contains b.type) then
      (w, .returned (jsonError 400 "Missing type"))
    else if !(given b.data) && b.type != some "folder" then
      (w, .returned (jsonError 400 "Missing data"))
    else
      let parentTruthy : Bool := match b.parentId with
        | some p => p.text != ""
        | none => false
      let parentCheck : Result (Option Response) :=
        match b.parentId with
        | none => .returned none
        | some p =>
          if p.text = "" then .returned none
          else
            match p.objectId with
            | none => .threw
            | some o =>
              match findOne w.files [("_id", .oid o)] with
              | none => .returned (some (jsonError 400 "Parent not found"))
              | some parent =>
                if parent.get "type" ≠ .str "folder" then
                  .returned (some (jsonError 400 "Parent is not a folder"))
                else .returned none
      match parentCheck with
      | .threw => (w, .threw)
      | .returned (some resp) => (w, .returned resp)
      | .returned none =>
        let newFile : Doc :=
          [("name", optStr b.name),
           ("type", optStr b.type),
           ("parentId", if parentTruthy then .str ((b.parentId.map (fun p => p.text)).getD "") else .num 0),
           ("isPublic", .bool (b.isPublic.getD false)),
           ("userId", .str user._id.toString)]
        if b.type = some "folder" then
          let inserted := insertOne w.files newFile env.insertedId
          let w1 : World := { w with files := inserted.2 }
          (w1, .returned ⟨201, .json ((inserted.1.set "id" (.oid env.insertedId)).delete "_id")⟩)
        else
          let storeFolderPath := if given env.FOLDER_PATH then env.FOLDER_PATH.getD "" else "/tmp/files_manager"
          let fileName := env.uuid
          let filePath := pathJoin storeFolderPath fileName
          let newFile1 := newFile.set "localPath" (.str filePath)
          let decodedData := bufferFromBase64 (b.data.getD "")
          let w1 := ensureDirectoryExists w storeFolderPath
          writeToFile w1 env filePath decodedData newFile1

/-- Source: `getShow(req, res)`. -/
def getShow (w : World) (req : IdRequest) : Result Response :=
  match retrieveUserBasedOnToken w req.xToken with
  | .threw => .threw
  | .returned none => .returned (jsonError 401 "Unauthorized")
  | .returned (some user) =>
    match req.id.objectId with
    | none => .threw
    | some o =>
      match findOne w.files [("_id", .oid o), ("userId", .oid user._id)] with
      | none => .returned (jsonError 404 "Not found")
      | some file => .returned ⟨200, .json (publicView file)⟩

/-- Source: `getIndex(req, res)`. A negative `$skip` makes `aggregate` reject. -/
def getIndex (w : World) (req : IndexRequest) : Result Response :=
  match retrieveUserBasedOnToken w req.xToken with
  | .threw => .threw
  | .returned none => .returned (jsonError 401 "Unauthorized")
  | .returned (some user) =>
    let page : Int := req.page.getD 1
    let pageSize : Nat := 20
    let skip : Int := (page - 1) * pageSize
    let query : Query :=
      if given req.parentId then
        [("userId", .str user._id.toString), ("parentId", optStr req.parentId)]
      else [("userId", .str user._id.toString)]
    if skip < 0 then .threw
    else
      let result := ((w.files.filter (matchesQuery query)).drop skip.toNat).take pageSize
      .returned ⟨200, .jsonArray (result.map publicView)⟩

/-- Source: `pubSubHelper(req, res, isPublic)`. -/
def pubSubHelper (w : World) (req : IdRequest) (isPublic : Bool) : World × Result Response :=
  match retrieveUserBasedOnToken w req.xToken with
  | .threw => (w, .threw)
  | .returned none => (w, .returned (jsonError 401 "Unauthorized"))
  | .returned (some user) =>
    match req.id.objectId with
    | none => (w, .threw)
    | some o =>
      match findOne w.files [("userId", .oid user._id), ("_id", .oid o)] with
      | none => (w, .returned (jsonError 404 "Not found"))
      | some _ =>
        let w1 : World := { w with files := updateOne [("_id", .oid o)] "isPublic" (.bool isPublic) w.files }
        match findOne w1.files [("_id", .oid o)] with
        | none => (w1, .threw)
        | some updatedFile => (w1, .returned ⟨200, .json (publicView updatedFile)⟩)

/-- Source: `putPublish(req, res)`. -/
def putPublish (w : World) (req : IdRequest) : World × Result Response :=
  pubSubHelper w req true

/-- Source: `putUnpublish(req, res)`. -/
def putUnpublish (w : World) (req : IdRequest) : World × Result Response :=
  pubSubHelper w req false

/-- Source: `getFile(req, res)`. A path that is not a string makes `fs.access` throw;
`res.sendFile(filePath)` is called without a `root`, so it throws for a path that
is not absolute. -/
def getFile (w : World) (req : FileRequest) : Result Response :=
  match req.id with
  | none => .returned (jsonError 404 "Not found")
  | some id =>
    if id.text = "" then .returned (jsonError 404 "Not found")
    else
      match retrieveUserBasedOnToken w req.xToken with
      | .threw => .threw
      | .returned user =>
        match id.objectId with
        | none => .threw
        | some o =>
          match findOne w.files [("_id", .oid o)] with
          | none => .returned (jsonError 404 "Not found")
          | some file =>
            if user.isNone && !(file.get "isPublic").truthy then
              .returned (jsonError 404 "Not found")
            else if !(file.get "isPublic").truthy && user.isSome
                && decide (some (file.get "userId") ≠ user.map (fun u => Val.str u._id.toString)) then
              .returned (jsonError 404 "Not found")
            else if file.get "type" = .str "folder" then
              .returned (jsonError 400 "A folder doesn't have content")
            else
              let filePath : Val :=
                if given req.size && decide (file.get "type" = .str "image") then
                  .str ((file.get "localPath").toTemplateString ++ "_" ++ req.size.getD "")
                else file.get "localPath"
              match filePath with
              | .str p =>
                if !(pathExists w p) then .returned (jsonError 404 "Not found")
                else if !(isAbsolute p) then .threw
                else .returned ⟨200, .sendFile p (file.get "name")⟩
              | _ => .threw

end FilesController

/-! ## A concrete scenario -/

namespace Scenario

/-- Identifier of the principal of the scenario. -/
def alice : ObjectId := ⟨"5f1e8896c7ba06511e683b21", by decide⟩

/-- Identifier of a second principal. -/
def bob : ObjectId := ⟨"5f1e8896c7ba06511e683b22", by decide⟩

/-- Identifier the store assigns to the uploaded record. -/
def fileId : ObjectId := ⟨"5f1e879ec7ba06511e683b25", by decide⟩

/-- Identifier the store assigns to a second upload. -/
def imageId : ObjectId := ⟨"5f1e8896c7ba06511e683b26", by decide⟩

/-- The first principal's document. -/
def userAlice : User := ⟨alice, "alice@example.com"⟩

/-- The second principal's document. -/
def userBob : User := ⟨bob, "bob@example.com"⟩

/-- Two users, each with a session, and empty stores. -/
def world0 : World :=
  { redis := [("auth_tokA", IdText.ofObjectId alice), ("auth_tokB", IdText.ofObjectId bob)]
    users := [userAlice, userBob]
    files := []
    fs := []
    queue := [] }

/-- Library results for the upload of the scenario. -/
def env0 : Env :=
  { FOLDER_PATH := none, uuid := "51997b88-5c42-42c2-901e-e7f4e71bdc47",
    insertedId := fileId, writeFails := false }

/-- The upload of the scenario: `a.txt`, a file holding `hello`. -/
def uploadA : UploadRequest :=
  { xToken := some "tokA"
    body := { name := some "a.txt", type := some "file", parentId := none,
              isPublic := none, data := some "aGVsbG8=" } }

/-- Where the bytes of `a.txt` are written. -/
def pathA : String := "/tmp/files_manager/51997b88-5c42-42c2-901e-e7f4e71bdc47"

/-- The record the upload of the scenario stores. -/
def recordA : Doc :=
  [("name", .str "a.txt"), ("type", .str "file"), ("parentId", .num 0),
   ("isPublic", .bool false), ("userId", .str "5f1e8896c7ba06511e683b21"),
   ("localPath", .str pathA), ("_id", .oid fileId)]

/-- The state after the upload of the scenario. -/
def world1 : World :=
  { world0 with
    files := [recordA]
    fs := [(pathA, .file [104, 101, 108, 108, 111]), ("/tmp/files_manager", .dir)] }

/-- Library results for a second upload. -/
def env1 : Env :=
  { FOLDER_PATH := none, uuid := "0b4e9e1c-0f0b-4d0e-9c43-3f2b7a1d9a10",
    insertedId := imageId, writeFails := false }

/-- Library results for an upload under the relative storage root `files`. -/
def envRelative : Env :=
  { FOLDER_PATH := some "files", uuid := "51997b88-5c42-42c2-901e-e7f4e71bdc47",
    insertedId := fileId, writeFails := false }

/-- A second record of the first principal, inside a folder. -/
def recordChild : Doc :=
  [("name", .str "b.txt"), ("type", .str "file"),
   ("parentId", .str "5f1e8896c7ba06511e683b30"),
   ("isPublic", .bool false), ("userId", .str "5f1e8896c7ba06511e683b21"),
   ("localPath", .str "/tmp/files_manager/7d2c5a3e-3c57-4a0b-8a53-1f8f3e6f2b11"),
   ("_id", .oid imageId)]

/-- The state of `world1` with the second record added. -/
def world2 : World := { world1 with files := [recordA, recordChild] }

/-- A folder upload whose `parentId` is not the text of an identifier. -/
def uploadBadParent : UploadRequest :=
  { xToken := some "tokA"
    body := { name := some "docs", type := some "folder", parentId := some ⟨"abc", none⟩,
              isPublic := none, data := none } }

/-- A folder upload whose `parentId` denotes the file `a.txt`. -/
def uploadIntoFile : UploadRequest :=
  { xToken := some "tokA"
    body := { name := some "docs", type := some "folder",
              parentId := some (IdText.ofObjectId fileId), isPublic := none, data := none } }

/-- An image upload. -/
def uploadImage : UploadRequest :=
  { xToken := some "tokA"
    body := { name := some "pic.png", type := some "image", parentId := none,
              isPublic := some true, data := some "aGVsbG8=" } }

/-- A top-level folder upload. -/
def uploadFolder : UploadRequest :=
  { xToken := some "tokA"
    body := { name := some "docs", type := some "folder", parentId := none,
              isPublic := none, data := none } }

end Scenario

/-! ## Vocabulary of the specification -/

/-- The record's owner is the user: `userId` holds the user's identifier, as the
`ObjectId` itself or as its text. -/
def ownedBy (r : Doc) (u : User) : Prop :=
  r.get "userId" = .oid u._id ∨ r.get "userId" = .str u._id.toString

/-- The access rule of the specification: the record is public, or the requester
is resolved and owns it. -/
def mayRead (user : Option User) (r : Doc) : Prop :=
  (r.get "isPublic").truthy = true ∨ ∃ u, user = some u ∧ ownedBy r u

/-- Upload check: `name` is missing or empty. -/
def nameMissing (b : UploadBody) : Prop :=
  b.name = none ∨ b.name = some ""

/-- Upload check: `type` is missing or not one of folder, file, image. -/
def typeInvalid (b : UploadBody) : Prop :=
  b.type ≠ some "folder" ∧ b.type ≠ some "file" ∧ b.type ≠ some "image"

/-- Upload check: `data` is missing (absent or empty) while `type` is not folder. -/
def dataMissing (b : UploadBody) : Prop :=
  (b.data = none ∨ b.data = some "") ∧ b.type ≠ some "folder"

/-- The body gives `parentId`: the field is present and not empty. -/
def parentGiven (b : UploadBody) (p : IdText) : Prop :=
  b.parentId = some p ∧ p.text ≠ ""

/-- No record of the collection has the identifier. -/
def noRecordWithId (w : World) (o : ObjectId) : Prop :=
  ∀ d ∈ w.files, d.get "_id" ≠ .oid o

/-- The record the identifier denotes is not a folder. -/
def parentNotFolder (w : World) (o : ObjectId) : Prop :=
  ∃ parent, findOne w.files [("_id", .oid o)] = some parent ∧ parent.get "type" ≠ .str "folder"

/-- The parent reference passes: it denotes a record and that record is a folder. -/
def parentIsFolder (w : World) (p : IdText) : Prop :=
  ∃ o parent, p.objectId = some o ∧ findOne w.files [("_id", .oid o)] = some parent ∧
    parent.get "type" = .str "folder"

/-- All upload checks pass for a resolved principal. -/
def uploadValid (w : World) (b : UploadBody) : Prop :=
  ¬ nameMissing b ∧ ¬ typeInvalid b ∧ ¬ dataMissing b ∧ ∀ p, parentGiven b p → parentIsFolder w p

/-- The object `newFile` an accepted upload builds. -/
def newFileOf (b : UploadBody) (u : User) : Doc :=
  [("name", optStr b.name),
   ("type", optStr b.type),
   ("parentId", if (match b.parentId with | some p => p.text != "" | none => false)
      then .str ((b.parentId.map (fun p => p.text)).getD "") else .num 0),
   ("isPublic", .bool (b.isPublic.getD false)),
   ("userId", .str u._id.toString)]

/-- The storage root: `env.FOLDER_PATH || '/tmp/files_manager'`. -/
def storeFolderPathOf (env : Env) : String :=
  if given env.FOLDER_PATH then env.FOLDER_PATH.getD "" else "/tmp/files_manager"

/-- What `postUpload` does once every check has passed. -/
def acceptedUpload (w : World) (env : Env) (b : UploadBody) (u : User) : World × Result Response :=
  if b.type = some "folder" then
    ({ w with files := (insertOne w.files (newFileOf b u) env.insertedId).2 },
      .returned ⟨201, .json (((insertOne w.files (newFileOf b u) env.insertedId).1.set "id"
        (.oid env.insertedId)).delete "_id")⟩)
  else
    FilesController.writeToFile (FilesController.ensureDirectoryExists w (storeFolderPathOf env)) env
      (pathJoin (storeFolderPathOf env) env.uuid) (bufferFromBase64 (b.data.getD ""))
      ((newFileOf b u).set "localPath" (.str (pathJoin (storeFolderPathOf env) env.uuid)))

/-- The path an upload writes to: `path.join(storeFolderPath, fileName)`. -/
def filePathOf (env : Env) : String := pathJoin (storeFolderPathOf env) env.uuid

/-- The job an image upload hands to the queue. -/
def jobOf (env : Env) (u : User) : Doc :=
  [("userId", .str u._id.toString), ("fileId", .oid env.insertedId)]

/-- The documents the `$match` stage of `getIndex` selects for `u`: those whose
`userId` is the text of `u`'s identifier and, when a parent filter is given (present
and not empty), whose `parentId` is that very string. -/
def listedFor (u : User) (parentId : Option String) (d : Doc) : Bool :=
  d.get "userId" == .str u._id.toString &&
    (match parentId with
     | some s => s == "" || d.get "parentId" == .str s
     | none => true)

/-- No object of a body has a `localPath` field. -/
def Body.noLocalPath : Body → Prop
  | .json d => d.hasKey "localPath" = false
  | .jsonArray ds => ∀ d ∈ ds, Doc.hasKey d "localPath" = false
  | .sendFile _ _ => True

/-- The access rule `getFile` applies: the record is public, or the requester is
resolved and the record's `userId` is the text of its identifier. -/
def mayFetch (user : Option User) (r : Doc) : Prop :=
  (r.get "isPublic").truthy = true ∨ ∃ u, user = some u ∧ r.get "userId" = .str u._id.toString

/-! ## Field reads and writes -/

theorem Doc.hasKey_iff (d : Doc) (k : String) :
    Doc.hasKey d k = true ↔ ∃ v, (k, v) ∈ d := by
  unfold Doc.hasKey
  rw [List.any_eq_true]
  constructor
  · rintro ⟨⟨k', v⟩, hm, hk⟩
    have : k' = k := by simpa using hk
    subst this
    exact ⟨v, hm⟩
  · rintro ⟨v, hm⟩
    exact ⟨(k, v), hm, by simp⟩

theorem Doc.hasKey_cons (kv : String × Val) (d : Doc) (k : String) :
    Doc.hasKey (kv :: d) k = (kv.1 == k || Doc.hasKey d k) := by
  simp [Doc.hasKey]

theorem Doc.hasKey_append (a b : Doc) (k : String) :
    Doc.hasKey (a ++ b) k = (Doc.hasKey a k || Doc.hasKey b k) := by
  simp [Doc.hasKey]

theorem Doc.get_cons (kv : String × Val) (d : Doc) (k : String) :
    Doc.get (kv :: d) k =
      if Doc.hasKey d k then Doc.get d k else if kv.1 == k then kv.2 else .undefined := rfl

theorem Doc.get_of_hasKey_false (d : Doc) (k : String) (h : Doc.hasKey d k = false) :
    Doc.get d k = .undefined := by
  induction d with
  | nil => rfl
  | cons kv rest ih =>
    rw [Doc.hasKey_cons] at h
    simp only [Bool.or_eq_false_iff] at h
    rw [Doc.get_cons]
    simp [h.1, h.2]

theorem Doc.get_append (a b : Doc) (k : String) :
    Doc.get (a ++ b) k = if Doc.hasKey b k then Doc.get b k else Doc.get a k := by
  induction a with
  | nil =>
    cases h : Doc.hasKey b k
    · simp [Doc.get_of_hasKey_false b k h, Doc.get]
    · simp
  | cons kv rest ih =>
    show Doc.get (kv :: (rest ++ b)) k = _
    rw [Doc.get_cons, Doc.get_cons, Doc.hasKey_append, ih]
    cases hb : Doc.hasKey b k <;> cases hr : Doc.hasKey rest k <;> simp

theorem Doc.delete_cons (kv : String × Val) (d : Doc) (k' : String) :
    Doc.delete (kv :: d) k' = if kv.1 == k' then Doc.delete d k' else kv :: Doc.delete d k' := by
  unfold Doc.delete
  rw [List.filter_cons]
  cases h : kv.1 == k' <;> simp

theorem Doc.hasKey_delete (d : Doc) (k k' : String) :
    Doc.hasKey (Doc.delete d k') k = (Doc.hasKey d k && !(k == k')) := by
  induction d with
  | nil => rfl
  | cons kv rest ih =>
    rw [Doc.delete_cons, Doc.hasKey_cons]
    by_cases h : kv.1 = k'
    · rw [if_pos (by simpa using h), ih]
      by_cases hk : k = k'
      · simp [hk]
      · have : (kv.1 == k) = false := by
          rw [beq_eq_false_iff_ne]; intro e; exact hk (e.symm.trans h)
        simp [this]
    · rw [if_neg (by simpa using h), Doc.hasKey_cons, ih]
      by_cases hk : k = k'
      · have : (kv.1 == k') = false := by
          rw [beq_eq_false_iff_ne]; exact h
        simp [hk, this]
      · have : (k == k') = false := by
          rw [beq_eq_false_iff_ne]; exact hk
        simp [this]

theorem Doc.get_delete (d : Doc) (k k' : String) (hk : k ≠ k') :
    Doc.get (Doc.delete d k') k = Doc.get d k := by
  induction d with
  | nil => rfl
  | cons kv rest ih =>
    have hrest : Doc.hasKey (Doc.delete rest k') k = Doc.hasKey rest k := by
      rw [Doc.hasKey_delete]; simp [hk]
    rw [Doc.delete_cons, Doc.get_cons]
    by_cases h : kv.1 = k'
    · have hne : (kv.1 == k) = false := by
        rw [beq_eq_false_iff_ne]; intro e; exact hk (e.symm.trans h)
      rw [if_pos (by simpa using h), ih, hne]
      cases hr : Doc.hasKey rest k
      · simp [Doc.get_of_hasKey_false rest k hr]
      · simp
    · rw [if_neg (by simpa using h), Doc.get_cons, hrest, ih]

theorem Doc.set_of_hasKey (d : Doc) (k : String) (v : Val) (h : Doc.hasKey d k = true) :
    Doc.set d k v = d.map (fun kv => if kv.1 == k then (k, v) else kv) := by
  unfold Doc.set; rw [if_pos h]

theorem Doc.set_of_not_hasKey (d : Doc) (k : String) (v : Val) (h : Doc.hasKey d k = false) :
    Doc.set d k v = d ++ [(k, v)] := by
  unfold Doc.set; rw [if_neg (by simp [h])]

theorem Doc.hasKey_overwrite (d : Doc) (k k' : String) (v : Val) :
    Doc.hasKey (d.map (fun kv => if kv.1 == k' then (k', v) else kv)) k = Doc.hasKey d k := by
  induction d with
  | nil => rfl
  | cons kv rest ih =>
    rw [List.map_cons, Doc.hasKey_cons, Doc.hasKey_cons, ih]
    congr 1
    by_cases h : kv.1 = k'
    · simp [h]
    · simp [h]

theorem Doc.get_overwrite (d : Doc) (k k' : String) (v : Val) :
    Doc.get (d.map (fun kv => if kv.1 == k' then (k', v) else kv)) k =
      if k == k' && Doc.hasKey d k then v else Doc.get d k := by
  induction d with
  | nil => simp [Doc.get, Doc.hasKey]
  | cons kv rest ih =>
    rw [List.map_cons, Doc.get_cons, Doc.hasKey_overwrite, ih, Doc.get_cons, Doc.hasKey_cons]
    cases hr : Doc.hasKey rest k
    · by_cases h : kv.1 = k'
      · by_cases hk : k = k'
        · simp [h, hk]
        · have : ¬ k' = k := fun e => hk e.symm
          simp [h, hk, this]
      · by_cases hk : k = k'
        · have : ¬ kv.1 = k := fun e => h (e.trans hk)
          simp [h, hk, this]
        · simp [h, hk]
    · simp

theorem Doc.hasKey_set (d : Doc) (k k' : String) (v : Val) :
    Doc.hasKey (Doc.set d k' v) k = (Doc.hasKey d k || k == k') := by
  cases h : Doc.hasKey d k'
  · rw [Doc.set_of_not_hasKey d k' v h, Doc.hasKey_append]
    congr 1
    by_cases hk : k = k'
    · simp [Doc.hasKey, hk]
    · have : ¬ k' = k := fun e => hk e.symm
      simp [Doc.hasKey, hk, this]
  · rw [Doc.set_of_hasKey d k' v h, Doc.hasKey_overwrite]
    by_cases hk : k = k'
    · simp [hk, h]
    · simp [hk]

theorem Doc.get_set_self (d : Doc) (k : String) (v : Val) :
    Doc.get (Doc.set d k v) k = v := by
  cases h : Doc.hasKey d k
  · rw [Doc.set_of_not_hasKey d k v h, Doc.get_append]
    simp [Doc.hasKey, Doc.get]
  · rw [Doc.set_of_hasKey d k v h, Doc.get_overwrite]
    simp [h]

theorem Doc.get_set_of_ne (d : Doc) (k k' : String) (v : Val) (hk : k ≠ k') :
    Doc.get (Doc.set d k' v) k = Doc.get d k := by
  cases h : Doc.hasKey d k'
  · rw [Doc.set_of_not_hasKey d k' v h, Doc.get_append]
    have : ¬ k' = k := fun e => hk e.symm
    simp [Doc.hasKey, this]
  · rw [Doc.set_of_hasKey d k' v h, Doc.get_overwrite]
    simp [hk]

theorem Doc.hasKey_spread (base src : Doc) (k : String) :
    Doc.hasKey (Doc.spread base src) k = (Doc.hasKey base k || Doc.hasKey src k) := by
  unfold Doc.spread
  induction src generalizing base with
  | nil => simp [Doc.hasKey]
  | cons kv rest ih =>
    rw [List.foldl_cons, ih, Doc.hasKey_set, Doc.hasKey_cons]
    have e : (k == kv.1) = (kv.1 == k) := by
      by_cases h : kv.1 = k
      · simp [h]
      · have h' : ¬ k = kv.1 := fun e => h e.symm
        rw [beq_eq_false_iff_ne.mpr h, beq_eq_false_iff_ne.mpr h']
    rw [e, Bool.or_assoc]

theorem Doc.get_spread (base src : Doc) (k : String) :
    Doc.get (Doc.spread base src) k =
      if Doc.hasKey src k then Doc.get src k else Doc.get base k := by
  unfold Doc.spread
  induction src generalizing base with
  | nil => simp [Doc.hasKey]
  | cons kv rest ih =>
    rw [List.foldl_cons, ih, Doc.get_cons, Doc.hasKey_cons]
    cases hr : Doc.hasKey rest k
    · by_cases h : kv.1 = k
      · subst h
        simp [Doc.get_set_self]
      · have hne : k ≠ kv.1 := fun e => h e.symm
        simp [h, Doc.get_set_of_ne _ _ _ _ hne]
    · simp

/-- A field other than `_id`, `localPath` and `id` reads the same in the
serialised object as in the stored document. -/
theorem get_publicView (file : Doc) (k : String)
    (h1 : k ≠ "_id") (h2 : k ≠ "localPath") (h3 : k ≠ "id") :
    Doc.get (publicView file) k = Doc.get file k := by
  unfold publicView
  simp only
  rw [Doc.get_spread, Doc.hasKey_delete, Doc.hasKey_delete, Doc.get_delete _ _ _ h2,
    Doc.get_delete _ _ _ h1]
  cases h : Doc.hasKey file k
  · have : ¬ "id" = k := fun e => h3 e.symm
    simp [Doc.get_of_hasKey_false file k h, Doc.get, Doc.hasKey, this]
  · have e1 : (k == "_id") = false := by rw [beq_eq_false_iff_ne]; exact h1
    have e2 : (k == "localPath") = false := by rw [beq_eq_false_iff_ne]; exact h2
    simp [e1, e2]

/-- The serialised object has no `localPath` field. -/
theorem publicView_no_localPath (file : Doc) :
    Doc.hasKey (publicView file) "localPath" = false := by
  unfold publicView
  simp only
  rw [Doc.hasKey_spread, Doc.hasKey_delete]
  simp [Doc.hasKey]

open FilesController

/-! ## Lookups -/

theorem findOne_mem (coll : List Doc) (q : Query) (d : Doc) (h : findOne coll q = some d) :
    d ∈ coll := List.mem_of_find?_eq_some h

theorem findOne_matches (coll : List Doc) (q : Query) (d : Doc) (h : findOne coll q = some d) :
    matchesQuery q d = true := List.find?_some h

theorem matchesQuery_one (k : String) (v : Val) (d : Doc) :
    matchesQuery [(k, v)] d = true ↔ d.get k = v := by
  simp [matchesQuery]

theorem matchesQuery_two (k1 k2 : String) (v1 v2 : Val) (d : Doc) :
    matchesQuery [(k1, v1), (k2, v2)] d = true ↔ d.get k1 = v1 ∧ d.get k2 = v2 := by
  simp [matchesQuery]

/-! ## Claims -/

/-- C1. Whenever `getShow`, `getIndex` or `getFile` answers with a stored record's
projection or content, the record is public or the requester is resolved and owns
it; and `getFile` on a record that is not public answers 404 `Not found` when the
requester is unresolved and when its identifier text differs from the record's
`userId`. -/
theorem access_requires_public_or_owner (w : World) (r : Doc) (hr : r ∈ w.files)
    (xToken : Option String) (user : Option User)
    (hu : retrieveUserBasedOnToken w xToken = .returned user) :
    (∀ id, getShow w ⟨xToken, id⟩ = .returned ⟨200, .json (publicView r)⟩ → mayRead user r) ∧
    (∀ parentId page ds, getIndex w ⟨xToken, parentId, page⟩ = .returned ⟨200, .jsonArray ds⟩ →
        publicView r ∈ ds → mayRead user r) ∧
    (∀ id o size path name, id.objectId = some o → findOne w.files [("_id", .oid o)] = some r →
        getFile w ⟨xToken, some id, size⟩ = .returned ⟨200, .sendFile path name⟩ →
        mayRead user r) ∧
    (∀ id o size, id.objectId = some o → findOne w.files [("_id", .oid o)] = some r →
        (r.get "isPublic").truthy = false →
        (user = none ∨ ∃ u, user = some u ∧ r.get "userId" ≠ .str u._id.toString) →
        getFile w ⟨xToken, some id, size⟩ = .returned (jsonError 404 "Not found")) := by
  have _ := hr
  refine ⟨?_, ?_, ?_, ?_⟩
  · intro id h
    simp only [getShow, hu] at h
    cases user with
    | none => simp [jsonError] at h
    | some u =>
      simp only at h
      cases ho : id.objectId with
      | none => simp [ho] at h
      | some o =>
        simp only [ho] at h
        cases hf : findOne w.files [("_id", .oid o), ("userId", .oid u._id)] with
        | none => simp [hf, jsonError] at h
        | some file =>
          simp only [hf] at h
          have hv : publicView file = publicView r := by
            simpa using h
          have hm := (matchesQuery_two _ _ _ _ _).mp (findOne_matches _ _ _ hf)
          have e1 := get_publicView file "userId" (by decide) (by decide) (by decide)
          have e2 := get_publicView r "userId" (by decide) (by decide) (by decide)
          rw [hv, e2] at e1
          exact Or.inr ⟨u, rfl, Or.inl (e1.trans hm.2)⟩
  · intro parentId page ds h hmem
    simp only [getIndex, hu] at h
    cases user with
    | none => simp [jsonError] at h
    | some u =>
      simp only at h
      split at h
      · simp at h
      · simp only [Result.returned.injEq, Response.mk.injEq, Body.jsonArray.injEq, true_and] at h
        rw [← h] at hmem
        obtain ⟨r', hr', hv⟩ := List.mem_map.mp hmem
        have hr'' := List.mem_of_mem_drop (List.mem_of_mem_take hr')
        have hq := (List.mem_filter.mp hr'').2
        have e1 := get_publicView r' "userId" (by decide) (by decide) (by decide)
        have e2 := get_publicView r "userId" (by decide) (by decide) (by decide)
        rw [hv, e2] at e1
        have hown : r'.get "userId" = .str u._id.toString := by
          split at hq
          · exact ((matchesQuery_two _ _ _ _ _).mp hq).1
          · exact (matchesQuery_one _ _ _).mp hq
        exact Or.inr ⟨u, rfl, Or.inr (e1.trans hown)⟩
  · intro id o size path name ho hf h
    simp only [getFile, hu, ho, hf] at h
    split at h
    · simp [jsonError] at h
    · cases hp : (r.get "isPublic").truthy with
      | true => exact Or.inl hp
      | false =>
        simp only [hp] at h
        cases user with
        | none => simp [jsonError] at h
        | some u =>
          by_cases hown : r.get "userId" = .str u._id.toString
          · exact Or.inr ⟨u, rfl, Or.inr hown⟩
          · simp [hown, jsonError] at h
  · intro id o size ho hf hp hcase
    simp only [getFile, hu, ho, hf, hp]
    split
    · rfl
    · rcases hcase with hnone | ⟨u, hsome, hne⟩
      · subst hnone
        simp
      · subst hsome
        simp [hne]

/-! ## Upload checks -/

theorem given_eq_false_iff (s : Option String) : given s = false ↔ (s = none ∨ s = some "") := by
  cases s with
  | none => simp [given, optStr, Val.truthy]
  | some t => simp [given, optStr, Val.truthy]

theorem nameMissing_iff (b : UploadBody) : nameMissing b ↔ given b.name = false :=
  (given_eq_false_iff b.name).symm

theorem typeInvalid_iff (b : UploadBody) :
    typeInvalid b ↔ (!(given b.type) || !((validTypes.map some).contains b.type)) = true := by
  unfold typeInvalid
  cases h : b.type with
  | none => simp [given, optStr, Val.truthy]
  | some t =>
    by_cases h1 : t = "folder"
    · subst h1; simp [given, optStr, Val.truthy, validTypes]
    · by_cases h2 : t = "file"
      · subst h2; simp [given, optStr, Val.truthy, validTypes]
      · by_cases h3 : t = "image"
        · subst h3; simp [given, optStr, Val.truthy, validTypes]
        · simp [validTypes, h1, h2, h3]

theorem dataMissing_iff (b : UploadBody) :
    dataMissing b ↔ (!(given b.data) && b.type != some "folder") = true := by
  unfold dataMissing
  rw [← given_eq_false_iff]
  simp

theorem findOne_id_none_iff (w : World) (o : ObjectId) :
    findOne w.files [("_id", .oid o)] = none ↔ noRecordWithId w o := by
  unfold findOne noRecordWithId
  rw [List.find?_eq_none]
  constructor
  · intro h d hd e
    exact h d hd ((matchesQuery_one _ _ _).mpr e)
  · intro h d hd e
    exact h d hd ((matchesQuery_one _ _ _).mp e)

theorem postUpload_of_checks (w : World) (env : Env) (req : UploadRequest) (u : User)
    (hu : retrieveUserBasedOnToken w req.xToken = .returned (some u))
    (h1 : ¬ nameMissing req.body) (h2 : ¬ typeInvalid req.body) (h3 : ¬ dataMissing req.body) :
    postUpload w env req =
      match req.body.parentId with
      | none => acceptedUpload w env req.body u
      | some p =>
        if p.text = "" then acceptedUpload w env req.body u
        else
          match p.objectId with
          | none => (w, .threw)
          | some o =>
            match findOne w.files [("_id", .oid o)] with
            | none => (w, .returned (jsonError 400 "Parent not found"))
            | some parent =>
              if parent.get "type" ≠ .str "folder" then
                (w, .returned (jsonError 400 "Parent is not a folder"))
              else acceptedUpload w env req.body u := by
  rw [nameMissing_iff] at h1
  rw [typeInvalid_iff] at h2
  rw [dataMissing_iff] at h3
  simp only [Bool.not_eq_false] at h1
  simp only [Bool.not_eq_true] at h2 h3
  unfold postUpload
  simp only [hu, h1, h2, h3]
  cases hp : req.body.parentId with
  | none => simp [acceptedUpload, newFileOf, storeFolderPathOf, hp]
  | some p =>
    by_cases ht : p.text = ""
    · simp [acceptedUpload, newFileOf, storeFolderPathOf, ht, hp]
    · cases ho : p.objectId with
      | none => simp [ht, ho]
      | some o =>
        cases hf : findOne w.files [("_id", .oid o)] with
        | none => simp [ht, ho, hf]
        | some parent =>
          by_cases hty : parent.get "type" = .str "folder"
          · simp [acceptedUpload, newFileOf, storeFolderPathOf, ht, ho, hf, hty, hp]
          · simp [ht, ho, hf, hty]

theorem acceptedUpload_folder (w : World) (env : Env) (b : UploadBody) (u : User)
    (h : b.type = some "folder") :
    acceptedUpload w env b u =
      ({ w with files := w.files ++ [newFileOf b u ++ [("_id", .oid env.insertedId)]] },
        .returned ⟨201, .json (newFileOf b u ++ [("id", .oid env.insertedId)])⟩) := by
  simp [acceptedUpload, h, insertOne, newFileOf, Doc.set, Doc.hasKey, Doc.delete]

theorem acceptedUpload_writeFails (w : World) (env : Env) (b : UploadBody) (u : User)
    (h : b.type ≠ some "folder") (hw : env.writeFails = true) :
    acceptedUpload w env b u = (ensureDirectoryExists w (storeFolderPathOf env), .threw) := by
  simp [acceptedUpload, h, writeToFile, hw]

theorem acceptedUpload_file (w : World) (env : Env) (b : UploadBody) (u : User)
    (h : b.type ≠ some "folder") (hw : env.writeFails = false) :
    acceptedUpload w env b u =
      ({ redis := w.redis, users := w.users,
         files := w.files ++
           [newFileOf b u ++ [("localPath", .str (filePathOf env)), ("_id", .oid env.insertedId)]],
         fs := (filePathOf env, .file (bufferFromBase64 (b.data.getD ""))) ::
           (ensureDirectoryExists w (storeFolderPathOf env)).fs,
         queue := if b.type = some "image" then w.queue ++ [jobOf env u] else w.queue },
        .returned ⟨201, .json (newFileOf b u ++ [("id", .oid env.insertedId)])⟩) := by
  have e : (ensureDirectoryExists w (storeFolderPathOf env)).files = w.files ∧
      (ensureDirectoryExists w (storeFolderPathOf env)).queue = w.queue ∧
      (ensureDirectoryExists w (storeFolderPathOf env)).redis = w.redis ∧
      (ensureDirectoryExists w (storeFolderPathOf env)).users = w.users := by
    unfold ensureDirectoryExists; split <;> simp
  by_cases hi : b.type = some "image"
  · simp [acceptedUpload, h, writeToFile, hw, insertOne, newFileOf, Doc.set, Doc.hasKey,
      Doc.delete, Doc.get, filePathOf, jobOf, e, hi, optStr]
  · have hi' : ¬ optStr b.type = Val.str "image" := by
      cases hb : b.type with
      | none => simp [optStr]
      | some t => simp [optStr]; intro e; exact hi (by rw [hb, e])
    simp [acceptedUpload, h, writeToFile, hw, insertOne, newFileOf, Doc.set, Doc.hasKey,
      Doc.delete, Doc.get, filePathOf, jobOf, e, hi, hi']

theorem postUpload_valid (w : World) (env : Env) (req : UploadRequest) (u : User)
    (hu : retrieveUserBasedOnToken w req.xToken = .returned (some u))
    (hv : uploadValid w req.body) :
    postUpload w env req = acceptedUpload w env req.body u := by
  obtain ⟨h1, h2, h3, h4⟩ := hv
  rw [postUpload_of_checks w env req u hu h1 h2 h3]
  cases hp : req.body.parentId with
  | none => rfl
  | some p =>
    by_cases ht : p.text = ""
    · simp [ht]
    · obtain ⟨o, parent, ho, hf, hty⟩ := h4 p ⟨hp, ht⟩
      simp [ht, ho, hf, hty]

/-- Every run of `postUpload` either leaves the state as it was, throwing or
answering an error, or passes all checks and proceeds to the insert. -/
theorem postUpload_cases (w : World) (env : Env) (req : UploadRequest) :
    (∃ r, postUpload w env req = (w, r) ∧
        (r = .threw ∨ ∃ c m, r = .returned (jsonError c m) ∧ c ≠ 201)) ∨
    (∃ u, retrieveUserBasedOnToken w req.xToken = .returned (some u) ∧
        uploadValid w req.body ∧ postUpload w env req = acceptedUpload w env req.body u) := by
  cases hu : retrieveUserBasedOnToken w req.xToken with
  | threw => exact Or.inl ⟨.threw, by simp [postUpload, hu], Or.inl rfl⟩
  | returned user =>
    cases user with
    | none =>
      exact Or.inl ⟨_, by simp only [postUpload, hu], Or.inr ⟨401, "Unauthorized", rfl, by decide⟩⟩
    | some u =>
      by_cases h1 : nameMissing req.body
      · refine Or.inl ⟨_, ?_, Or.inr ⟨400, "Missing name", rfl, by decide⟩⟩
        have := (nameMissing_iff _).mp h1
        simp [postUpload, hu, this]
      by_cases h2 : typeInvalid req.body
      · refine Or.inl ⟨_, ?_, Or.inr ⟨400, "Missing type", rfl, by decide⟩⟩
        have e1 : given req.body.name = true := by
          simpa using (not_congr (nameMissing_iff _)).mp h1
        have e2 := (typeInvalid_iff _).mp h2
        simp only [postUpload, hu, e1, e2]
        simp
      by_cases h3 : dataMissing req.body
      · refine Or.inl ⟨_, ?_, Or.inr ⟨400, "Missing data", rfl, by decide⟩⟩
        have e1 : given req.body.name = true := by
          simpa using (not_congr (nameMissing_iff _)).mp h1
        have e2 : (!(given req.body.type) || !((validTypes.map some).contains req.body.type)) = false := by
          simpa using (not_congr (typeInvalid_iff _)).mp h2
        have e3 := (dataMissing_iff _).mp h3
        simp only [postUpload, hu, e1, e2, e3]
        simp
      have hform := postUpload_of_checks w env req u hu h1 h2 h3
      cases hp : req.body.parentId with
      | none =>
        refine Or.inr ⟨u, rfl, ⟨h1, h2, h3, ?_⟩, ?_⟩
        · intro p hpg; rw [hpg.1] at hp; cases hp
        · rw [hform, hp]
      | some p =>
        rw [hp] at hform
        by_cases ht : p.text = ""
        · refine Or.inr ⟨u, rfl, ⟨h1, h2, h3, ?_⟩, ?_⟩
          · intro p' hpg
            rw [hpg.1] at hp
            cases hp
            exact absurd ht hpg.2
          · rw [hform]; simp [ht]
        · cases ho : p.objectId with
          | none =>
            refine Or.inl ⟨.threw, ?_, Or.inl rfl⟩
            rw [hform]; simp [ht, ho]
          | some o =>
            cases hf : findOne w.files [("_id", .oid o)] with
            | none =>
              refine Or.inl ⟨_, ?_, Or.inr ⟨400, "Parent not found", rfl, by decide⟩⟩
              rw [hform]; simp [ht, ho, hf]
            | some parent =>
              by_cases hty : parent.get "type" = .str "folder"
              · refine Or.inr ⟨u, rfl, ⟨h1, h2, h3, ?_⟩, ?_⟩
                · intro p' hpg
                  rw [hpg.1] at hp
                  cases hp
                  exact ⟨o, parent, ho, hf, hty⟩
                · rw [hform]; simp [ht, ho, hf, hty]
              · refine Or.inl ⟨_, ?_, Or.inr ⟨400, "Parent is not a folder", rfl, by decide⟩⟩
                rw [hform]; simp [ht, ho, hf, hty]

theorem acceptedUpload_answer (w : World) (env : Env) (b : UploadBody) (u : User) :
    (b.type = some "folder" ∨ env.writeFails = false) →
    (acceptedUpload w env b u).2 =
      .returned ⟨201, .json (newFileOf b u ++ [("id", .oid env.insertedId)])⟩ := by
  intro h
  by_cases hf : b.type = some "folder"
  · rw [acceptedUpload_folder w env b u hf]
  · rcases h with h | h
    · exact absurd h hf
    · rw [acceptedUpload_file w env b u hf h]

/-- When `postUpload` answers 201. -/
theorem postUpload_created_iff (w : World) (env : Env) (req : UploadRequest) :
    (∃ body, (postUpload w env req).2 = .returned ⟨201, body⟩) ↔
      ∃ u, retrieveUserBasedOnToken w req.xToken = .returned (some u) ∧
        uploadValid w req.body ∧ (req.body.type = some "folder" ∨ env.writeFails = false) := by
  constructor
  · rintro ⟨body, h201⟩
    rcases postUpload_cases w env req with ⟨r, hr, hcase⟩ | ⟨u, hu, hv, hacc⟩
    · rw [hr] at h201
      rcases hcase with hthrew | ⟨c, m, hrc, hc⟩
      · rw [hthrew] at h201; cases h201
      · rw [hrc] at h201
        simp only [jsonError, Result.returned.injEq, Response.mk.injEq] at h201
        exact absurd h201.1 hc
    · refine ⟨u, hu, hv, ?_⟩
      by_cases hf : req.body.type = some "folder"
      · exact Or.inl hf
      · right
        cases hw : env.writeFails with
        | false => rfl
        | true =>
          rw [hacc, acceptedUpload_writeFails w env req.body u hf hw] at h201
          cases h201
  · rintro ⟨u, hu, hv, hok⟩
    rw [postUpload_valid w env req u hu hv, acceptedUpload_answer w env req.body u hok]
    exact ⟨_, rfl⟩

/-- C2, amended. `postUpload` answers with the error of the first failing check,
in the order: principal unresolved, 401 `Unauthorized`; name missing or empty, 400
`Missing name`; type missing or not one of folder, file, image, 400 `Missing type`;
data missing (absent or empty) while type is not folder, 400 `Missing data`;
parentId given, the text of an identifier, and no record has it, 400
`Parent not found`; parentId given and the parent's type is not folder, 400
`Parent is not a folder`. When principal resolution throws, or parentId is given
and is not the text of an identifier, the handler throws and answers nothing. It
answers 201 exactly when the principal is resolved, no check fails and, unless the
type is folder, the write of the bytes succeeds. -/
theorem upload_first_failing_check (w : World) (env : Env) (req : UploadRequest) :
    (retrieveUserBasedOnToken w req.xToken = .returned none →
        postUpload w env req = (w, .returned (jsonError 401 "Unauthorized"))) ∧
    (retrieveUserBasedOnToken w req.xToken = .threw → postUpload w env req = (w, .threw)) ∧
    (∀ u, retrieveUserBasedOnToken w req.xToken = .returned (some u) →
      (nameMissing req.body →
        postUpload w env req = (w, .returned (jsonError 400 "Missing name"))) ∧
      (¬ nameMissing req.body → typeInvalid req.body →
        postUpload w env req = (w, .returned (jsonError 400 "Missing type"))) ∧
      (¬ nameMissing req.body → ¬ typeInvalid req.body → dataMissing req.body →
        postUpload w env req = (w, .returned (jsonError 400 "Missing data"))) ∧
      (¬ nameMissing req.body → ¬ typeInvalid req.body → ¬ dataMissing req.body →
        ∀ p, parentGiven req.body p →
          (p.objectId = none → postUpload w env req = (w, .threw)) ∧
          (∀ o, p.objectId = some o → noRecordWithId w o →
            postUpload w env req = (w, .returned (jsonError 400 "Parent not found"))) ∧
          (∀ o, p.objectId = some o → parentNotFolder w o →
            postUpload w env req = (w, .returned (jsonError 400 "Parent is not a folder"))))) ∧
    ((∃ body, (postUpload w env req).2 = .returned ⟨201, body⟩) ↔
      ∃ u, retrieveUserBasedOnToken w req.xToken = .returned (some u) ∧
        uploadValid w req.body ∧ (req.body.type = some "folder" ∨ env.writeFails = false)) := by
  refine ⟨?_, ?_, ?_, ?_⟩
  · intro hu
    simp only [postUpload, hu]
  · intro hu
    simp only [postUpload, hu]
  · intro u hu
    refine ⟨?_, ?_, ?_, ?_⟩
    · intro h1
      have := (nameMissing_iff _).mp h1
      simp [postUpload, hu, this]
    · intro h1 h2
      have e1 : given req.body.name = true := by
        simpa using (not_congr (nameMissing_iff _)).mp h1
      have e2 := (typeInvalid_iff _).mp h2
      simp only [postUpload, hu, e1, e2]
      simp
    · intro h1 h2 h3
      have e1 : given req.body.name = true := by
        simpa using (not_congr (nameMissing_iff _)).mp h1
      have e2 : (!(given req.body.type) || !((validTypes.map some).contains req.body.type)) = false := by
        simpa using (not_congr (typeInvalid_iff _)).mp h2
      have e3 := (dataMissing_iff _).mp h3
      simp only [postUpload, hu, e1, e2, e3]
      simp
    · intro h1 h2 h3 p hpg
      have hform := postUpload_of_checks w env req u hu h1 h2 h3
      rw [hpg.1] at hform
      refine ⟨?_, ?_, ?_⟩
      · intro ho
        rw [hform]; simp [hpg.2, ho]
      · intro o ho hnone
        have hf := (findOne_id_none_iff w o).mpr hnone
        rw [hform]; simp [hpg.2, ho, hf]
      · intro o ho hnf
        obtain ⟨parent, hf, hty⟩ := hnf
        rw [hform]; simp [hpg.2, ho, hf, hty]
  · exact postUpload_created_iff w env req

/-- C3. An upload that `postUpload` does not answer with 201 leaves the `files`
collection and the job queue as they were; and when an upload whose type is not
folder does change the collection, the write succeeded, the collection gained one
record, and the bytes decoded from the request are in the file system at that
record's `localPath`. -/
theorem failed_upload_leaves_store (w : World) (env : Env) (req : UploadRequest) :
    ((¬ ∃ body, (postUpload w env req).2 = .returned ⟨201, body⟩) →
        (postUpload w env req).1.files = w.files ∧ (postUpload w env req).1.queue = w.queue) ∧
    (req.body.type ≠ some "folder" → (postUpload w env req).1.files ≠ w.files →
        env.writeFails = false ∧
        ∃ stored, (postUpload w env req).1.files = w.files ++ [stored] ∧
          stored.get "localPath" = .str (filePathOf env) ∧
          readFile (postUpload w env req).1 (filePathOf env) =
            some (bufferFromBase64 (req.body.data.getD ""))) := by
  have hens : (ensureDirectoryExists w (storeFolderPathOf env)).files = w.files ∧
      (ensureDirectoryExists w (storeFolderPathOf env)).queue = w.queue := by
    unfold ensureDirectoryExists; split <;> simp
  rcases postUpload_cases w env req with ⟨r, hr, _⟩ | ⟨u, hu, hv, hacc⟩
  · rw [hr]
    exact ⟨fun _ => ⟨rfl, rfl⟩, fun _ h => absurd rfl h⟩
  · rw [hacc]
    by_cases hf : req.body.type = some "folder"
    · constructor
      · intro hno
        exact absurd ⟨_, acceptedUpload_answer w env req.body u (Or.inl hf)⟩ hno
      · intro h; exact absurd hf h
    · cases hw : env.writeFails with
      | true =>
        rw [acceptedUpload_writeFails w env req.body u hf hw]
        exact ⟨fun _ => hens, fun _ h => absurd hens.1 h⟩
      | false =>
        constructor
        · intro hno
          exact absurd ⟨_, acceptedUpload_answer w env req.body u (Or.inr hw)⟩ hno
        · intro _ _
          rw [acceptedUpload_file w env req.body u hf hw]
          refine ⟨rfl, _, rfl, ?_, ?_⟩
          · simp [Doc.get_append, Doc.hasKey, Doc.get]
          · simp [readFile, List.lookup]

theorem retrieveUser_congr (w w' : World) (xToken : Option String)
    (h1 : w'.redis = w.redis) (h2 : w'.users = w.users) :
    retrieveUserBasedOnToken w' xToken = retrieveUserBasedOnToken w xToken := by
  unfold retrieveUserBasedOnToken
  rw [h1, h2]

theorem ObjectId.hex_ne_empty (o : ObjectId) : o.hex ≠ "" := by
  intro h
  have := o.wf
  rw [h] at this
  simp at this

theorem findOne_append_new (coll : List Doc) (q : Query) (d : Doc)
    (h1 : findOne coll q = none) (h2 : matchesQuery q d = true) :
    findOne (coll ++ [d]) q = some d := by
  unfold findOne at h1 ⊢
  rw [List.find?_append, h1]
  simp [List.find?, h2]

/-- C4, amended. Round trip: when a resolved principal's upload of type `file` with
non-empty content `C` is answered 201 with an identifier the store had not used,
the bytes stored at the new record's `localPath` are the base64 decoding of `C`;
`getFile` for that identifier by the same principal with no size answers 200 and
sends that file when `localPath` is an absolute path, and throws, sending no
answer, when it is not (a relative `FOLDER_PATH`). -/
theorem upload_getFile_round_trip (w : World) (env : Env) (req : UploadRequest) (u : User)
    (C : String) (body : Body)
    (hu : retrieveUserBasedOnToken w req.xToken = .returned (some u))
    (hty : req.body.type = some "file")
    (hC : req.body.data = some C) (hne : C ≠ "")
    (hfresh : noRecordWithId w env.insertedId)
    (h201 : (postUpload w env req).2 = .returned ⟨201, body⟩) :
    (∃ d, body = .json d ∧ d.get "id" = .oid env.insertedId) ∧
    (∃ stored, stored ∈ (postUpload w env req).1.files ∧
        stored.get "_id" = .oid env.insertedId ∧
        stored.get "localPath" = .str (filePathOf env)) ∧
    readFile (postUpload w env req).1 (filePathOf env) = some (bufferFromBase64 C) ∧
    (isAbsolute (filePathOf env) = true →
      getFile (postUpload w env req).1
          ⟨req.xToken, some (IdText.ofObjectId env.insertedId), none⟩ =
        .returned ⟨200, .sendFile (filePathOf env) (optStr req.body.name)⟩ ∧
      Response.delivered (postUpload w env req).1
          ⟨200, .sendFile (filePathOf env) (optStr req.body.name)⟩ =
        some (bufferFromBase64 C)) ∧
    (isAbsolute (filePathOf env) = false →
      getFile (postUpload w env req).1
          ⟨req.xToken, some (IdText.ofObjectId env.insertedId), none⟩ = .threw) := by
  have _ := hne
  obtain ⟨u', hu', hv, hok⟩ := (postUpload_created_iff w env req).mp ⟨body, h201⟩
  rw [hu] at hu'
  cases hu'
  have hf : req.body.type ≠ some "folder" := by rw [hty]; decide
  have hw : env.writeFails = false := by
    rcases hok with h | h
    · exact absurd h hf
    · exact h
  have hacc := postUpload_valid w env req u hu hv
  have hfile := acceptedUpload_file w env req.body u hf hw
  rw [hacc, hfile] at h201
  rw [hacc, hfile]
  have hbody : body = .json (newFileOf req.body u ++ [("id", .oid env.insertedId)]) := by
    simp only [Result.returned.injEq, Response.mk.injEq, true_and] at h201
    exact h201.symm
  have hid : Doc.get (newFileOf req.body u ++
      [("localPath", Val.str (filePathOf env)), ("_id", Val.oid env.insertedId)]) "_id" =
      .oid env.insertedId := by
    simp [Doc.get_append, Doc.hasKey, Doc.get]
  have hlp : Doc.get (newFileOf req.body u ++
      [("localPath", Val.str (filePathOf env)), ("_id", Val.oid env.insertedId)]) "localPath" =
      .str (filePathOf env) := by
    simp [Doc.get_append, Doc.hasKey, Doc.get]
  have hfind := findOne_append_new w.files [("_id", .oid env.insertedId)] _
    ((findOne_id_none_iff w env.insertedId).mpr hfresh)
    ((matchesQuery_one _ _ _).mpr hid)
  have hret : retrieveUserBasedOnToken
      { redis := w.redis, users := w.users,
        files := w.files ++ [newFileOf req.body u ++
          [("localPath", Val.str (filePathOf env)), ("_id", Val.oid env.insertedId)]],
        fs := (filePathOf env, .file (bufferFromBase64 (req.body.data.getD ""))) ::
          (ensureDirectoryExists w (storeFolderPathOf env)).fs,
        queue := if req.body.type = some "image" then w.queue ++ [jobOf env u] else w.queue }
      req.xToken = .returned (some u) := by
    exact (retrieveUser_congr w _ req.xToken rfl rfl).trans hu
  have htext : (IdText.ofObjectId env.insertedId).text ≠ "" := ObjectId.hex_ne_empty _
  have hobj : (IdText.ofObjectId env.insertedId).objectId = some env.insertedId := rfl
  have huid : Doc.get (newFileOf req.body u ++
      [("localPath", Val.str (filePathOf env)), ("_id", Val.oid env.insertedId)]) "userId" =
      .str u._id.toString := by
    simp [Doc.get_append, Doc.hasKey, Doc.get, newFileOf]
  have htype : Doc.get (newFileOf req.body u ++
      [("localPath", Val.str (filePathOf env)), ("_id", Val.oid env.insertedId)]) "type" =
      .str "file" := by
    simp [Doc.get_append, Doc.hasKey, Doc.get, newFileOf, hty, optStr]
  have hname : Doc.get (newFileOf req.body u ++
      [("localPath", Val.str (filePathOf env)), ("_id", Val.oid env.insertedId)]) "name" =
      optStr req.body.name := by
    simp [Doc.get_append, Doc.hasKey, Doc.get, newFileOf]
  have hread : readFile
      { redis := w.redis, users := w.users,
        files := w.files ++ [newFileOf req.body u ++
          [("localPath", Val.str (filePathOf env)), ("_id", Val.oid env.insertedId)]],
        fs := (filePathOf env, .file (bufferFromBase64 (req.body.data.getD ""))) ::
          (ensureDirectoryExists w (storeFolderPathOf env)).fs,
        queue := if req.body.type = some "image" then w.queue ++ [jobOf env u] else w.queue }
      (filePathOf env) = some (bufferFromBase64 C) := by
    simp [readFile, List.lookup, hC]
  refine ⟨⟨_, hbody, ?_⟩, ⟨_, ?_, hid, hlp⟩, hread, ?_, ?_⟩
  · simp [Doc.get_append, Doc.hasKey, Doc.get]
  · simp
  · intro habs
    refine ⟨?_, ?_⟩
    · simp only [getFile, hret, htext, hobj, hfind, huid, htype, hlp, hname]
      simp [given, optStr, Val.truthy, pathExists, List.lookup, habs]
    · simpa [Response.delivered] using hread
  · intro habs
    simp only [getFile, hret, htext, hobj, hfind, huid, htype, hlp, hname]
    simp [given, optStr, Val.truthy, pathExists, List.lookup, habs]

theorem acceptedUpload_answer_ignores_queue (w : World) (env : Env) (b : UploadBody) (u : User)
    (q : List Doc) :
    (acceptedUpload { w with queue := q } env b u).2 = (acceptedUpload w env b u).2 := by
  by_cases hf : b.type = some "folder"
  · rw [acceptedUpload_folder _ env b u hf, acceptedUpload_folder _ env b u hf]
  · cases hw : env.writeFails with
    | true =>
      rw [acceptedUpload_writeFails _ env b u hf hw, acceptedUpload_writeFails _ env b u hf hw]
    | false =>
      rw [acceptedUpload_file _ env b u hf hw, acceptedUpload_file _ env b u hf hw]

/-- The answer of `postUpload` does not depend on what the job queue holds. -/
theorem postUpload_answer_ignores_queue (w : World) (env : Env) (req : UploadRequest)
    (q : List Doc) :
    (postUpload { w with queue := q } env req).2 = (postUpload w env req).2 := by
  have hr : retrieveUserBasedOnToken { w with queue := q } req.xToken =
      retrieveUserBasedOnToken w req.xToken := retrieveUser_congr w _ req.xToken rfl rfl
  cases hu : retrieveUserBasedOnToken w req.xToken with
  | threw => simp [postUpload, hu, hr]
  | returned user =>
    cases user with
    | none => simp [postUpload, hu, hr]
    | some u =>
      have hu' := hr.trans hu
      by_cases h1 : nameMissing req.body
      · have := (nameMissing_iff _).mp h1
        simp [postUpload, hu, hu', this]
      by_cases h2 : typeInvalid req.body
      · have e1 : given req.body.name = true := by
          simpa using (not_congr (nameMissing_iff _)).mp h1
        have e2 := (typeInvalid_iff _).mp h2
        simp only [postUpload, hu, hu', e1, e2]
        simp
      by_cases h3 : dataMissing req.body
      · have e1 : given req.body.name = true := by
          simpa using (not_congr (nameMissing_iff _)).mp h1
        have e2 : (!(given req.body.type) || !((validTypes.map some).contains req.body.type)) = false := by
          simpa using (not_congr (typeInvalid_iff _)).mp h2
        have e3 := (dataMissing_iff _).mp h3
        simp only [postUpload, hu, hu', e1, e2, e3]
        simp
      rw [postUpload_of_checks w env req u hu h1 h2 h3,
        postUpload_of_checks _ env req u hu' h1 h2 h3]
      have ha := acceptedUpload_answer_ignores_queue w env req.body u q
      cases req.body.parentId with
      | none => exact ha
      | some p =>
        dsimp only
        by_cases ht : p.text = ""
        · rw [if_pos ht, if_pos ht]; exact ha
        · rw [if_neg ht, if_neg ht]
          cases p.objectId with
          | none => rfl
          | some o =>
            dsimp only
            cases findOne w.files [("_id", .oid o)] with
            | none => rfl
            | some parent =>
              dsimp only
              by_cases hty : parent.get "type" = .str "folder"
              · rw [if_neg (not_not.mpr hty), if_neg (not_not.mpr hty)]; exact ha
              · rw [if_pos hty, if_pos hty]

/-- C10. For an upload answered 201 on behalf of the resolved principal `u`: the
answer is the new record's projection; when the type is image the queue gains
exactly one job, `{ userId: u's identifier text, fileId: the identifier of the
record just inserted }`; when the type is not image (file or folder) the queue is
as it was. The answer is the same whatever the queue holds. -/
theorem image_upload_enqueues_one_job (w : World) (env : Env) (req : UploadRequest) (u : User)
    (body : Body)
    (hu : retrieveUserBasedOnToken w req.xToken = .returned (some u))
    (h201 : (postUpload w env req).2 = .returned ⟨201, body⟩) :
    body = .json (newFileOf req.body u ++ [("id", .oid env.insertedId)]) ∧
    (∃ stored, (postUpload w env req).1.files = w.files ++ [stored] ∧
        stored.get "_id" = .oid env.insertedId ∧ stored.get "userId" = .str u._id.toString) ∧
    (req.body.type = some "image" →
        (postUpload w env req).1.queue =
          w.queue ++ [[("userId", .str u._id.toString), ("fileId", .oid env.insertedId)]]) ∧
    (req.body.type ≠ some "image" →
        (req.body.type = some "file" ∨ req.body.type = some "folder") ∧
        (postUpload w env req).1.queue = w.queue) ∧
    (∀ q, (postUpload { w with queue := q } env req).2 = .returned ⟨201, body⟩) := by
  have hany : ∀ q, (postUpload { w with queue := q } env req).2 = .returned ⟨201, body⟩ := by
    intro q
    rw [postUpload_answer_ignores_queue]
    exact h201
  obtain ⟨u', hu', hv, hok⟩ := (postUpload_created_iff w env req).mp ⟨body, h201⟩
  rw [hu] at hu'
  cases hu'
  have hacc := postUpload_valid w env req u hu hv
  have hans := acceptedUpload_answer w env req.body u hok
  rw [hacc] at h201 ⊢
  rw [hans] at h201
  have hbody : body = .json (newFileOf req.body u ++ [("id", .oid env.insertedId)]) := by
    simp only [Result.returned.injEq, Response.mk.injEq, true_and] at h201
    exact h201.symm
  refine ⟨hbody, ?_⟩
  by_cases hf : req.body.type = some "folder"
  · rw [acceptedUpload_folder w env req.body u hf]
    refine ⟨⟨_, rfl, ?_, ?_⟩, ?_, ?_, hany⟩
    · simp [Doc.get_append, Doc.hasKey, Doc.get]
    · simp [Doc.get_append, Doc.hasKey, Doc.get, newFileOf]
    · intro hi; rw [hf] at hi; simp at hi
    · intro _; exact ⟨Or.inr hf, rfl⟩
  · have hw : env.writeFails = false := by
      rcases hok with h | h
      · exact absurd h hf
      · exact h
    rw [acceptedUpload_file w env req.body u hf hw]
    refine ⟨⟨_, rfl, ?_, ?_⟩, ?_, ?_, hany⟩
    · simp [Doc.get_append, Doc.hasKey, Doc.get]
    · simp [Doc.get_append, Doc.hasKey, Doc.get, newFileOf]
    · intro hi; simp [hi, jobOf]
    · intro hi
      refine ⟨?_, by simp [hi]⟩
      have h2 := hv.2.1
      unfold typeInvalid at h2
      by_cases hfile : req.body.type = some "file"
      · exact Or.inl hfile
      · exact absurd ⟨hf, hfile, hi⟩ h2

/-- C7, amended. For a record the requester may fetch, `getFile` with a size looks
up the size-suffixed path only when the record's type is `image`. On a record of
type `file` whose bytes exist at `localPath`, whatever exists at the suffixed
path, it answers 200 and sends the file at `localPath` when that path is absolute,
and throws, sending no answer, when it is not. On a record of type `image` with
nothing at `localPath` followed by `_` and the size it answers 404 `Not found`. -/
theorem getFile_size_suffix_only_for_images (w : World) (xToken : Option String)
    (user : Option User) (id : IdText) (o : ObjectId) (size : String) (r : Doc) (p : String)
    (hu : retrieveUserBasedOnToken w xToken = .returned user)
    (hid : id.text ≠ "") (ho : id.objectId = some o)
    (hf : findOne w.files [("_id", .oid o)] = some r)
    (hacc : mayFetch user r) (hsize : size ≠ "") (hp : r.get "localPath" = .str p) :
    (r.get "type" = .str "file" → pathExists w p = true →
        (isAbsolute p = true →
          getFile w ⟨xToken, some id, some size⟩ =
            .returned ⟨200, .sendFile p (r.get "name")⟩) ∧
        (isAbsolute p = false → getFile w ⟨xToken, some id, some size⟩ = .threw)) ∧
    (r.get "type" = .str "image" → pathExists w (p ++ "_" ++ size) = false →
        getFile w ⟨xToken, some id, some size⟩ = .returned (jsonError 404 "Not found")) := by
  have hgate : ∀ rest : Result Response,
      (if (user.isNone && !(r.get "isPublic").truthy) = true then
          Result.returned (jsonError 404 "Not found")
        else if (!(r.get "isPublic").truthy && user.isSome
            && decide (some (r.get "userId") ≠ user.map (fun u => Val.str u._id.toString))) = true then
          Result.returned (jsonError 404 "Not found")
        else rest) = rest := by
    intro rest
    rcases hacc with hpub | ⟨u, hsome, hown⟩
    · simp [hpub]
    · subst hsome
      simp [hown]
  constructor
  · intro hty hex
    constructor
    · intro habs
      simp only [getFile, hu, hid, ho, hf, if_false, hgate]
      simp [hty, hp, hex, habs]
    · intro habs
      simp only [getFile, hu, hid, ho, hf, if_false, hgate]
      simp [hty, hp, hex, habs]
  · intro hty hex
    simp only [getFile, hu, hid, ho, hf, if_false, hgate]
    rw [String.append_assoc] at hex
    simp [hty, hp, given, optStr, Val.truthy, hsize, Val.toTemplateString, hex, String.append_assoc]

/-- What `getIndex` lists: for a resolved principal `u` and page number `n ≥ 1`
(page 1 when the request names none), the answer is 200 with the projections of
the documents at positions `(n-1)*20` to `n*20-1`, in stored order, among those
the `$match` stage selects: at most 20 of them, and none, not an error, once
`(n-1)*20` reaches their number. -/
theorem getIndex_lists (w : World) (xToken : Option String) (u : User)
    (parentId : Option String) (page : Option Int) (n : Nat)
    (hu : retrieveUserBasedOnToken w xToken = .returned (some u))
    (hn : 1 ≤ n) (hpage : page = some (n : Int) ∨ (page = none ∧ n = 1)) :
    getIndex w ⟨xToken, parentId, page⟩ =
      .returned ⟨200, .jsonArray
        ((((w.files.filter (listedFor u parentId)).drop ((n - 1) * 20)).take 20).map publicView)⟩ ∧
    ((((w.files.filter (listedFor u parentId)).drop ((n - 1) * 20)).take 20).map publicView).length
      ≤ 20 ∧
    ((w.files.filter (listedFor u parentId)).length ≤ (n - 1) * 20 →
      getIndex w ⟨xToken, parentId, page⟩ = .returned ⟨200, .jsonArray []⟩) := by
  have hq : (fun d => matchesQuery
      (if given parentId = true then
        [("userId", Val.str u._id.toString), ("parentId", optStr parentId)]
       else [("userId", Val.str u._id.toString)]) d) = listedFor u parentId := by
    funext d
    cases parentId with
    | none => simp [given, optStr, Val.truthy, matchesQuery, listedFor]
    | some s =>
      by_cases hs : s = ""
      · simp [given, optStr, Val.truthy, matchesQuery, listedFor, hs]
      · have hs' : (s == "") = false := by rw [beq_eq_false_iff_ne]; exact hs
        simp only [given, optStr, Val.truthy, matchesQuery, listedFor, hs']
        simp [hs]
  have hskip : ((page.getD 1 - 1) * ((20 : Nat) : Int)) = (((n - 1) * 20 : Nat) : Int) := by
    rcases hpage with h | ⟨h, h1⟩
    · subst h
      simp only [Option.getD_some]
      push_cast [Nat.cast_sub hn]
      ring
    · subst h; subst h1
      simp
  have hmain : getIndex w ⟨xToken, parentId, page⟩ =
      .returned ⟨200, .jsonArray
        ((((w.files.filter (listedFor u parentId)).drop ((n - 1) * 20)).take 20).map publicView)⟩ := by
    simp only [getIndex, hu, hskip]
    rw [if_neg (by exact not_lt.mpr (Int.ofNat_nonneg _))]
    simp only [Int.toNat_ofNat]
    rw [← hq]
  refine ⟨hmain, ?_, ?_⟩
  · rw [List.length_map, List.length_take]
    exact Nat.min_le_left _ _
  · intro hlen
    rw [hmain, List.drop_eq_nil_of_le hlen]
    rfl

theorem jsonError_noLocalPath (c : Nat) (m : String) : (jsonError c m).body.noLocalPath := by
  simp [jsonError, Body.noLocalPath, Doc.hasKey]

theorem newFileOf_noLocalPath (b : UploadBody) (u : User) (o : ObjectId) (k : String)
    (hk : k ≠ "localPath") :
    Doc.hasKey (newFileOf b u ++ [(k, .oid o)]) "localPath" = false := by
  simp [newFileOf, Doc.hasKey, hk]

theorem pubSubHelper_noLocalPath (w : World) (req : IdRequest) (isPublic : Bool)
    (resp : Response) (h : (pubSubHelper w req isPublic).2 = .returned resp) :
    resp.body.noLocalPath := by
  unfold pubSubHelper at h
  split at h
  · cases h
  · simp only [Result.returned.injEq] at h
    rw [← h]; exact jsonError_noLocalPath _ _
  · split at h
    · cases h
    · split at h
      · simp only [Result.returned.injEq] at h
        rw [← h]; exact jsonError_noLocalPath _ _
      · simp only at h
        split at h
        · cases h
        · simp only [Result.returned.injEq] at h
          rw [← h]
          exact publicView_no_localPath _

/-- C9. No JSON body answered by `postUpload` (folder and file or image paths),
`getShow`, `getIndex`, `putPublish` or `putUnpublish` has a `localPath` field,
whatever the stored records carry; and a folder upload answered 201 returns an
object whose `type` is `folder` and stores a record without a `localPath` field. -/
theorem no_localPath_in_answers (w : World) (env : Env) :
    (∀ req resp, (postUpload w env req).2 = .returned resp → resp.body.noLocalPath) ∧
    (∀ req resp, getShow w req = .returned resp → resp.body.noLocalPath) ∧
    (∀ req resp, getIndex w req = .returned resp → resp.body.noLocalPath) ∧
    (∀ req resp, (putPublish w req).2 = .returned resp → resp.body.noLocalPath) ∧
    (∀ req resp, (putUnpublish w req).2 = .returned resp → resp.body.noLocalPath) ∧
    (∀ req body, req.body.type = some "folder" →
        (postUpload w env req).2 = .returned ⟨201, body⟩ →
        ∃ d stored, body = .json d ∧ d.get "type" = .str "folder" ∧
          (postUpload w env req).1.files = w.files ++ [stored] ∧
          Doc.hasKey stored "localPath" = false) := by
  refine ⟨?_, ?_, ?_, ?_, ?_, ?_⟩
  · intro req resp h
    rcases postUpload_cases w env req with ⟨r, hr, hcase⟩ | ⟨u, _, _, hacc⟩
    · rw [hr] at h
      rcases hcase with hthrew | ⟨c, m, hrc, _⟩
      · rw [hthrew] at h; cases h
      · rw [hrc] at h
        simp only [Result.returned.injEq] at h
        rw [← h]; exact jsonError_noLocalPath _ _
    · rw [hacc] at h
      by_cases hf : req.body.type = some "folder"
      · rw [acceptedUpload_folder w env req.body u hf] at h
        simp only [Result.returned.injEq] at h
        rw [← h]
        exact newFileOf_noLocalPath _ _ _ _ (by decide)
      · cases hw : env.writeFails with
        | true =>
          rw [acceptedUpload_writeFails w env req.body u hf hw] at h
          cases h
        | false =>
          rw [acceptedUpload_file w env req.body u hf hw] at h
          simp only [Result.returned.injEq] at h
          rw [← h]
          exact newFileOf_noLocalPath _ _ _ _ (by decide)
  · intro req resp h
    unfold getShow at h
    split at h
    · cases h
    · simp only [Result.returned.injEq] at h
      rw [← h]; exact jsonError_noLocalPath _ _
    · split at h
      · cases h
      · split at h
        · simp only [Result.returned.injEq] at h
          rw [← h]; exact jsonError_noLocalPath _ _
        · simp only [Result.returned.injEq] at h
          rw [← h]
          exact publicView_no_localPath _
  · intro req resp h
    unfold getIndex at h
    split at h
    · cases h
    · simp only [Result.returned.injEq] at h
      rw [← h]; exact jsonError_noLocalPath _ _
    · simp only at h
      split at h
      · cases h
      · simp only [Result.returned.injEq] at h
        rw [← h]
        intro d hd
        obtain ⟨r, _, hr⟩ := List.mem_map.mp hd
        rw [← hr]
        exact publicView_no_localPath r
  · intro req resp h
    exact pubSubHelper_noLocalPath w req true resp h
  · intro req resp h
    exact pubSubHelper_noLocalPath w req false resp h
  · intro req body hf h201
    obtain ⟨u, hu, hv, _⟩ := (postUpload_created_iff w env req).mp ⟨body, h201⟩
    rw [postUpload_valid w env req u hu hv, acceptedUpload_folder w env req.body u hf] at h201 ⊢
    simp only [Result.returned.injEq, Response.mk.injEq, true_and] at h201
    refine ⟨_, _, h201.symm, ?_, rfl, ?_⟩
    · simp [Doc.get_append, Doc.hasKey, Doc.get, newFileOf, hf, optStr]
    · exact newFileOf_noLocalPath _ _ _ _ (by decide)

open FilesController Scenario

/-! ## The scenario, evaluated -/

/-- C1, instance: the second principal asks for the content of the first one's private
record and gets 404 `Not found`. -/
theorem access_requires_public_or_owner_witness :
    recordA ∈ world1.files ∧
    retrieveUserBasedOnToken world1 (some "tokB") = .returned (some userBob) ∧
    getFile world1 ⟨some "tokB", some (IdText.ofObjectId fileId), none⟩ =
      .returned (jsonError 404 "Not found") :=
  ⟨by decide, by decide,
    (access_requires_public_or_owner world1 recordA (by decide) (some "tokB") (some userBob)
      (by decide)).2.2.2 (IdText.ofObjectId fileId) fileId none rfl (by decide) (by decide)
      (Or.inr ⟨userBob, rfl, by decide⟩)⟩

/-- C2, counterexample: a resolved principal uploads a folder with name and type in
order and `parentId` set to `abc`; no record has that identifier, yet the handler
throws instead of answering 400 `Parent not found`. -/
theorem upload_malformed_parent_throws :
    retrieveUserBasedOnToken world0 uploadBadParent.xToken = .returned (some userAlice) ∧
    ¬ nameMissing uploadBadParent.body ∧ ¬ typeInvalid uploadBadParent.body ∧
    ¬ dataMissing uploadBadParent.body ∧
    parentGiven uploadBadParent.body ⟨"abc", none⟩ ∧
    world0.files = [] ∧
    postUpload world0 env0 uploadBadParent = (world0, .threw) ∧
    (postUpload world0 env0 uploadBadParent).2 ≠ .returned (jsonError 400 "Parent not found") := by
  refine ⟨by decide, ?_, ?_, ?_, ?_, rfl, by decide, by decide⟩
  · unfold nameMissing; decide
  · unfold typeInvalid; decide
  · unfold dataMissing; decide
  · unfold parentGiven; decide

/-- C2, instance: a folder upload whose `parentId` denotes the file `a.txt` is answered
400 `Parent is not a folder`. -/
theorem upload_first_failing_check_witness :
    postUpload world1 env1 uploadIntoFile =
      (world1, .returned (jsonError 400 "Parent is not a folder")) :=
  ((((upload_first_failing_check world1 env1 uploadIntoFile).2.2.1 userAlice (by decide)).2.2.2
      (by unfold nameMissing; decide) (by unfold typeInvalid; decide)
      (by unfold dataMissing; decide) (IdText.ofObjectId fileId)
      (by unfold parentGiven; decide)).2.2 fileId rfl ⟨recordA, by decide, by decide⟩)

/-- C3, instance: the rejected upload into `a.txt` leaves collection and queue alone. -/
theorem failed_upload_leaves_store_witness :
    (postUpload world1 env1 uploadIntoFile).1.files = world1.files ∧
    (postUpload world1 env1 uploadIntoFile).1.queue = world1.queue :=
  (failed_upload_leaves_store world1 env1 uploadIntoFile).1 (by
    rintro ⟨body, h⟩
    have e : postUpload world1 env1 uploadIntoFile =
        (world1, .returned (jsonError 400 "Parent is not a folder")) := by decide
    rw [e] at h
    simp [jsonError] at h)

/-- C4, counterexample: with `FOLDER_PATH` set to `files`, the upload of `a.txt` by a
resolved principal is answered 201 and its bytes are stored, but `getFile` for the
returned identifier by the same principal with no size throws instead of answering
200: the stored `localPath` is relative. -/
theorem upload_relative_root_getFile_throws :
    retrieveUserBasedOnToken world0 uploadA.xToken = .returned (some userAlice) ∧
    uploadA.body.type = some "file" ∧ uploadA.body.data = some "aGVsbG8=" ∧
    (postUpload world0 envRelative uploadA).2 = .returned ⟨201, .json
      [("name", .str "a.txt"), ("type", .str "file"), ("parentId", .num 0),
       ("isPublic", .bool false), ("userId", .str "5f1e8896c7ba06511e683b21"),
       ("id", .oid fileId)]⟩ ∧
    readFile (postUpload world0 envRelative uploadA).1
      "files/51997b88-5c42-42c2-901e-e7f4e71bdc47" = some [104, 101, 108, 108, 111] ∧
    getFile (postUpload world0 envRelative uploadA).1
      ⟨some "tokA", some (IdText.ofObjectId fileId), none⟩ = .threw ∧
    ¬ ∃ body, getFile (postUpload world0 envRelative uploadA).1
      ⟨some "tokA", some (IdText.ofObjectId fileId), none⟩ = .returned ⟨200, body⟩ := by
  have h : getFile (postUpload world0 envRelative uploadA).1
      ⟨some "tokA", some (IdText.ofObjectId fileId), none⟩ = .threw := by decide
  refine ⟨by decide, rfl, rfl, by decide, by decide, h, ?_⟩
  rintro ⟨body, hb⟩
  rw [h] at hb
  cases hb

/-- C4, instance of the amended claim: under the default storage root, `a.txt` uploaded
with the base64 text of `hello` is read back. -/
theorem upload_getFile_round_trip_witness :
    retrieveUserBasedOnToken world0 uploadA.xToken = .returned (some userAlice) ∧
    uploadA.body.type = some "file" ∧ uploadA.body.data = some "aGVsbG8=" ∧
    noRecordWithId world0 env0.insertedId ∧
    isAbsolute (filePathOf env0) = true ∧
    (getFile (postUpload world0 env0 uploadA).1
        ⟨uploadA.xToken, some (IdText.ofObjectId env0.insertedId), none⟩ =
      .returned ⟨200, .sendFile (filePathOf env0) (optStr uploadA.body.name)⟩ ∧
    Response.delivered (postUpload world0 env0 uploadA).1
        ⟨200, .sendFile (filePathOf env0) (optStr uploadA.body.name)⟩ =
      some (bufferFromBase64 "aGVsbG8=")) ∧
    bufferFromBase64 "aGVsbG8=" = [104, 101, 108, 108, 111] :=
  have hfresh : noRecordWithId world0 env0.insertedId := by
    intro d hd; cases hd
  have habs : isAbsolute (filePathOf env0) = true := by decide
  ⟨by decide, rfl, rfl, hfresh, habs,
    (upload_getFile_round_trip world0 env0 uploadA userAlice "aGVsbG8="
      (.json [("name", .str "a.txt"), ("type", .str "file"), ("parentId", .num 0),
        ("isPublic", .bool false), ("userId", .str "5f1e8896c7ba06511e683b21"),
        ("id", .oid fileId)])
      (by decide) rfl rfl (by decide) hfresh (by decide)).2.2.2.1 habs,
    by decide⟩

/-- C5, evaluated: the upload of `a.txt` by the first principal is answered 201 with
`parentId` 0 and `isPublic` false, and `getShow` for the returned identifier by the
same principal is answered 404 `Not found`: the record stores `userId` as text and
the lookup compares it with the `ObjectId`. -/
theorem getShow_after_upload_not_found :
    postUpload world0 env0 uploadA =
      (world1, .returned ⟨201, .json
        [("name", .str "a.txt"), ("type", .str "file"), ("parentId", .num 0),
         ("isPublic", .bool false), ("userId", .str "5f1e8896c7ba06511e683b21"),
         ("id", .oid fileId)]⟩) ∧
    getShow world1 ⟨some "tokA", IdText.ofObjectId fileId⟩ =
      .returned (jsonError 404 "Not found") := by
  constructor <;> decide

/-- C6, evaluated: `putPublish` and `putUnpublish` by the uploader for the record
just uploaded are answered 404 `Not found` and leave the record as it was. -/
theorem publish_after_upload_not_found :
    (postUpload world0 env0 uploadA).1 = world1 ∧
    putPublish world1 ⟨some "tokA", IdText.ofObjectId fileId⟩ =
      (world1, .returned (jsonError 404 "Not found")) ∧
    putUnpublish world1 ⟨some "tokA", IdText.ofObjectId fileId⟩ =
      (world1, .returned (jsonError 404 "Not found")) := by
  refine ⟨?_, ?_, ?_⟩ <;> decide

/-- C7, counterexample: `a.txt` is of type `file`, its bytes exist at `localPath`,
nothing exists at `localPath` followed by `_500`, and `getFile` with size 500 by
its owner answers 200 with the file at `localPath`, not 404. -/
theorem getFile_size_on_file_answers_200 :
    recordA.get "type" = .str "file" ∧ recordA.get "localPath" = .str pathA ∧
    isAbsolute pathA = true ∧
    pathExists world1 pathA = true ∧ pathExists world1 (pathA ++ "_500") = false ∧
    getFile world1 ⟨some "tokA", some (IdText.ofObjectId fileId), some "500"⟩ =
      .returned ⟨200, .sendFile pathA (.str "a.txt")⟩ ∧
    getFile world1 ⟨some "tokA", some (IdText.ofObjectId fileId), some "500"⟩ ≠
      .returned (jsonError 404 "Not found") := by
  refine ⟨?_, ?_, ?_, ?_, ?_, ?_, ?_⟩ <;> decide

/-- C7, instance of the amended claim on `a.txt`. -/
theorem getFile_size_suffix_only_for_images_witness :
    retrieveUserBasedOnToken world1 (some "tokA") = .returned (some userAlice) ∧
    findOne world1.files [("_id", .oid fileId)] = some recordA ∧
    mayFetch (some userAlice) recordA ∧ isAbsolute pathA = true ∧
    getFile world1 ⟨some "tokA", some (IdText.ofObjectId fileId), some "500"⟩ =
      .returned ⟨200, .sendFile pathA (recordA.get "name")⟩ :=
  have hacc : mayFetch (some userAlice) recordA := Or.inr ⟨userAlice, rfl, by decide⟩
  ⟨by decide, by decide, hacc, by decide,
    ((getFile_size_suffix_only_for_images world1 (some "tokA") (some userAlice)
      (IdText.ofObjectId fileId) fileId "500" recordA pathA (by decide) (by decide) rfl
      (by decide) hacc (by decide) (by decide)).1 (by decide) (by decide)).1 (by decide)⟩

/-- C8, evaluated: `a.txt` was uploaded with no `parentId`, so it is stored at top level
with `parentId` the number 0 and the uploader as owner; listing by the uploader with
`parentId=0` answers 200 with no record, because the filter compares the stored
number with the query text `0`. Without a filter the record is listed, and a filter
by a folder's identifier text selects the records stored under that text. -/
theorem getIndex_root_filter_lists_nothing :
    (postUpload world0 env0 uploadA).1 = world1 ∧
    recordA ∈ world1.files ∧
    recordA.get "userId" = .str userAlice._id.toString ∧
    recordA.get "parentId" = .num 0 ∧
    getIndex world1 ⟨some "tokA", some "0", some 1⟩ = .returned ⟨200, .jsonArray []⟩ ∧
    getIndex world1 ⟨some "tokA", none, some 1⟩ =
      .returned ⟨200, .jsonArray [publicView recordA]⟩ ∧
    getIndex world2 ⟨some "tokA", some "5f1e8896c7ba06511e683b30", none⟩ =
      .returned ⟨200, .jsonArray [publicView recordChild]⟩ ∧
    getIndex world2 ⟨some "tokA", some "0", none⟩ = .returned ⟨200, .jsonArray []⟩ := by
  refine ⟨?_, ?_, ?_, ?_, ?_, ?_, ?_, ?_⟩ <;> decide

/-- C9, instance: the listing answered to the owner has no `localPath` field, though
the stored record has one. -/
theorem no_localPath_in_answers_witness :
    Doc.hasKey recordA "localPath" = true ∧
    (Body.jsonArray [publicView recordA]).noLocalPath :=
  ⟨by decide,
    (no_localPath_in_answers world1 env1).2.2.1 ⟨some "tokA", none, none⟩
      ⟨200, .jsonArray [publicView recordA]⟩ (by decide)⟩

/-- C10, instance: an image upload is answered 201 and adds its one job. -/
theorem image_upload_enqueues_one_job_witness :
    retrieveUserBasedOnToken world1 uploadImage.xToken = .returned (some userAlice) ∧
    (postUpload world1 env1 uploadImage).2 = .returned ⟨201, .json
      [("name", .str "pic.png"), ("type", .str "image"), ("parentId", .num 0),
       ("isPublic", .bool true), ("userId", .str "5f1e8896c7ba06511e683b21"),
       ("id", .oid imageId)]⟩ ∧
    (postUpload world1 env1 uploadImage).1.queue =
      world1.queue ++ [[("userId", .str userAlice._id.toString), ("fileId", .oid env1.insertedId)]] :=
  ⟨by decide, by decide,
    (image_upload_enqueues_one_job world1 env1 uploadImage userAlice
      (.json [("name", .str "pic.png"), ("type", .str "image"), ("parentId", .num 0),
       ("isPublic", .bool true), ("userId", .str "5f1e8896c7ba06511e683b21"),
       ("id", .oid imageId)])
      (by decide) (by decide)).2.2.1 rfl⟩

end FilesManager
